import Mathlib

/-!
Verification of the Peanuts front-end modules (`src/web/management.js`,
`src/web/viewer.js`) via a shallow embedding of the relevant JavaScript
values and functions.  JavaScript runtime values are modelled by `JsVal`
(JSON trees plus `NaN`); `undefined` is modelled by `Option JsVal` with
`none` standing for `undefined`.  Fallible code (property access on
`null`, calling `.map`/`.slice` on values that lack them) is modelled
with `Except Unit`.
-/

/-- A JavaScript runtime value as used by the two modules: the JSON
constructors plus `NaN`.  Objects are ordered association lists, as JS
objects preserve insertion order of string keys. -/
inductive JsVal where
  | null
  | nan
  | bool (b : Bool)
  | num (q : ℚ)
  | str (s : String)
  | arr (elems : List JsVal)
  | obj (fields : List (String × JsVal))

/-- JavaScript truthiness: `null`, `NaN`, `false`, `0`, and `""` are
falsy; every array and object (including empty ones) is truthy. -/
def truthy : JsVal → Bool
  | .null => false
  | .nan => false
  | .bool b => b
  | .num q => q != 0
  | .str s => s != ""
  | .arr _ => true
  | .obj _ => true

/-- Property read `v[k]` on a value that is not `null`/`undefined`:
objects look the key up, arrays and strings expose `length`, any other
access yields `undefined` (`none`). -/
def jget : JsVal → String → Option JsVal
  | .obj fs, k => (fs.find? (fun p => p.1 == k)).map (fun p => p.2)
  | .arr xs, k => if k == "length" then some (.num xs.length) else none
  | .str s, k => if k == "length" then some (.num s.length) else none
  | _, _ => none

/-- Property read `v[k]` where `v` may be `null`: JS throws a
`TypeError` on `null.k`. -/
def jmember (v : JsVal) (k : String) : Except Unit (Option JsVal) :=
  match v with
  | .null => .error ()
  | v => .ok (jget v k)

/-- Property read on a possibly-`undefined` receiver (throws on
`undefined`, like `undefined.k` in JS). -/
def jmemberO (o : Option JsVal) (k : String) : Except Unit (Option JsVal) :=
  match o with
  | none => .error ()
  | some v => jmember v k

/-- Optional chaining `o?.k`: `undefined`/`null` receivers give
`undefined` instead of throwing. -/
def jchain (o : Option JsVal) (k : String) : Option JsVal :=
  match o with
  | none => none
  | some .null => none
  | some v => jget v k

/-- JS `a || b` where `b` is a value that is always defined. -/
def jsOrV (a : Option JsVal) (b : JsVal) : JsVal :=
  match a with
  | none => b
  | some v => if truthy v then v else b

/-- JS `a ?? b` (nullish coalescing) where `b` is always defined. -/
def jsCoD (a : Option JsVal) (b : JsVal) : JsVal :=
  match a with
  | none => b
  | some .null => b
  | some v => v

/-- JS `a ?? b` with a possibly-undefined right-hand side. -/
def jsCo (a : Option JsVal) (b : Option JsVal) : Option JsVal :=
  match a with
  | none => b
  | some .null => b
  | some v => some v

/-- Assigning key `k` in an object field list: an existing binding is
overwritten in place, a new one is appended (JS property order). -/
def objSet {α : Type} (fs : List (String × α)) (k : String) (v : α) :
    List (String × α) :=
  if fs.any (fun p => p.1 == k) then
    fs.map (fun p => if p.1 == k then (k, v) else p)
  else fs ++ [(k, v)]

/-- Folding a list of bindings into an object, later bindings
overwriting earlier ones in place: the common core of object spread
(`{...a, ...b}`), `Object.assign`, and `Object.fromEntries`. -/
def objMergeFields {α : Type} (a b : List (String × α)) : List (String × α) :=
  b.foldl (fun acc p => objSet acc p.1 p.2) a

/-- `Object.fromEntries` on string-keyed entry pairs. -/
def objFromEntries {α : Type} (l : List (String × α)) : List (String × α) :=
  objMergeFields [] l

/-- The own enumerable properties contributed by spreading a value into
an object literal: objects give their fields, arrays and strings their
indexed elements, primitives nothing. -/
def spreadFields : JsVal → List (String × JsVal)
  | .obj fs => fs
  | .arr xs => (xs.enum.map (fun p => (toString p.1, p.2)))
  | .str s => (s.toList.enum.map (fun p => (toString p.1, JsVal.str (String.singleton p.2))))
  | _ => []

/-- `spreadFields` of a possibly-undefined value (`{...undefined}` is
`{}`). -/
def spreadO : Option JsVal → List (String × JsVal)
  | none => []
  | some v => spreadFields v

/-- Decimal rendering of a JS number.  Integers render as in JS; the two
modules only ever display integers (pitch numbers, counts, lengths), so
non-integral rationals use a fraction fallback. -/
def ratDisplay (q : ℚ) : String :=
  if q.den = 1 then toString q.num
  else toString q.num ++ "/" ++ toString q.den

mutual

/-- `String(v)` conversion of a JS value.  Arrays render as their
comma-joined elements with `null` elements rendered empty, as in
`Array.prototype.join`. -/
def jsDisplay : JsVal → String
  | .null => "null"
  | .nan => "NaN"
  | .bool b => if b then "true" else "false"
  | .num q => ratDisplay q
  | .str s => s
  | .obj _ => "[object Object]"
  | .arr xs => String.intercalate "," (jsDisplayList xs)

/-- Renders the elements of an array for `jsDisplay`. -/
def jsDisplayList : List JsVal → List String
  | [] => []
  | .null :: rest => "" :: jsDisplayList rest
  | v :: rest => jsDisplay v :: jsDisplayList rest

end

/-- Value of a digit string (`none` when empty or containing a
non-digit). -/
def digitsVal (s : String) : Option ℕ :=
  if s.isEmpty then none
  else s.toList.foldl
    (fun acc c => acc.bind (fun n => if c.isDigit then some (10 * n + (c.toNat - 48)) else none))
    (some 0)

/-- Parse an unsigned decimal literal (`"12"`, `"12.5"`, `".5"`,
`"12."`). -/
def parseUnsigned (t : String) : Option ℚ :=
  match t.splitOn "." with
  | [a] => (digitsVal a).map (fun n => (n : ℚ))
  | [a, b] =>
      if a.isEmpty then (digitsVal b).map (fun n => (n : ℚ) / 10 ^ b.length)
      else if b.isEmpty then (digitsVal a).map (fun n => (n : ℚ))
      else (digitsVal a).bind (fun n => (digitsVal b).map (fun m => (n : ℚ) + (m : ℚ) / 10 ^ b.length))
  | _ => none

/-- String-to-number conversion as in JS `Number(string)`: whitespace is
trimmed, the empty string is `0`, an optional sign precedes a decimal
literal, anything else is `NaN`. -/
def parseNumber (s : String) : JsVal :=
  let t := s.trim
  if t.isEmpty then .num 0
  else
    let (sign, body) :=
      if t.startsWith "-" then ((-1 : ℚ), t.drop 1)
      else if t.startsWith "+" then ((1 : ℚ), t.drop 1)
      else ((1 : ℚ), t)
    match parseUnsigned body with
    | some q => .num (sign * q)
    | none => .nan

/-- `Number(v)` conversion: arrays and objects convert via their string
rendering, as in JS `ToPrimitive`. -/
def jsNumber : JsVal → JsVal
  | .null => .num 0
  | .nan => .nan
  | .bool b => .num (if b then 1 else 0)
  | .num q => .num q
  | .str s => parseNumber s
  | .arr xs => parseNumber (jsDisplay (.arr xs))
  | .obj fs => parseNumber (jsDisplay (.obj fs))

/-- A lineup entry of the manager state (`{ name, position }`). -/
structure Player where
  name : String
  position : String
deriving DecidableEq, Repr

/-- A rotation entry of the manager state (`{ name, role }`). -/
structure Pitcher where
  name : String
  role : String
deriving DecidableEq, Repr

/-- The `economics` branch of the manager state: ticket price, the
promotion flag map, and the concession price map (ordered string-keyed
maps, like the JS objects they model). -/
structure Economics where
  ticketPrice : ℚ
  promotions : List (String × Bool)
  concessions : List (String × ℚ)
deriving DecidableEq, Repr

/-- The management panel's in-memory manager state
(`src/web/management.js`). -/
structure ManagerState where
  teamName : String
  lineup : List Player
  rotation : List Pitcher
  economics : Economics
deriving DecidableEq, Repr

/-- `defaultState` from `src/web/management.js`. -/
def defaultState : ManagerState :=
  { teamName := "Peanuts Club"
    lineup :=
      [⟨"Ivy Sparks", "CF"⟩, ⟨"Gale Torres", "SS"⟩, ⟨"Kip Lantern", "RF"⟩,
       ⟨"River Ocho", "1B"⟩, ⟨"Juniper Vail", "LF"⟩, ⟨"Hani Croft", "3B"⟩,
       ⟨"Marlow Quinn", "2B"⟩, ⟨"Tamsin Reed", "C"⟩, ⟨"Noah Calder", "DH"⟩]
    rotation :=
      [⟨"Cy Lumen", "SP"⟩, ⟨"Rosa Hallow", "SP"⟩, ⟨"Dylan Ash", "SP"⟩,
       ⟨"Mia Cortez", "RP"⟩, ⟨"Khalil Snow", "RP"⟩]
    economics :=
      { ticketPrice := 24
        promotions :=
          [("fireworks", true), ("kidsDay", false), ("themeNight", true), ("giveaway", false)]
        concessions :=
          [("Peanuts", 6), ("Crackerjacks", 7.5), ("Soda", 4), ("Local Brew", 8)] } }

/-- `PROMOTION_COSTS` from `src/web/management.js`. -/
def PROMOTION_COSTS : List (String × ℚ) :=
  [("fireworks", 15000), ("kidsDay", 5000), ("themeNight", 8000), ("giveaway", 12000)]

/-- `PROMOTION_COSTS[key] || 0`. -/
def promoCost (k : String) : ℚ :=
  (((PROMOTION_COSTS.find? (fun p => p.1 == k)).map (fun p => p.2)).getD 0)

/-- `BASE_CASH` from `src/web/management.js`. -/
def BASE_CASH : ℚ := 250000

/-- The JS object representation of a lineup entry. -/
def playerJson (p : Player) : JsVal :=
  .obj [("name", .str p.name), ("position", .str p.position)]

/-- The JS object representation of a rotation entry. -/
def pitcherJson (p : Pitcher) : JsVal :=
  .obj [("name", .str p.name), ("role", .str p.role)]

/-- The JS object representation of a manager state, as it is held in
the `state` variable and serialized to local storage. -/
def stateToJson (s : ManagerState) : JsVal :=
  .obj
    [("teamName", .str s.teamName),
     ("lineup", .arr (s.lineup.map playerJson)),
     ("rotation", .arr (s.rotation.map pitcherJson)),
     ("economics", .obj
        [("ticketPrice", .num s.economics.ticketPrice),
         ("promotions", .obj (s.economics.promotions.map (fun p => (p.1, JsVal.bool p.2)))),
         ("concessions", .obj (s.economics.concessions.map (fun p => (p.1, JsVal.num p.2))))])]

/-- The bridge payload built by `getBridgePayload` in
`src/web/management.js` (flattened: `team.id` is `teamId`,
`revenue.gate` is `revenue_gate`, `expenses.promotions` is
`expenses_promotions`). -/
structure BridgePayload where
  version : String
  teamId : String
  teamName : String
  lineup : List Player
  rotation : List Pitcher
  ticket_price : ℚ
  promotions : List String
  concessions_pricing : List (String × ℚ)
  cash_on_hand : ℚ
  revenue_gate : ℚ
  expenses_promotions : ℚ
deriving DecidableEq, Repr

/-- `getBridgePayload` from `src/web/management.js`.  On the typed
manager state, `Number(x || 0)` is the identity on the stored rational
(`0 || 0` is `0`), and `clone` is value copying. -/
def getBridgePayload (s : ManagerState) : BridgePayload :=
  let promoEntries := s.economics.promotions.filter (fun p => p.2)
  { version := "1.0.0"
    teamId := "peanuts-user-club"
    teamName := s.teamName
    lineup := s.lineup
    rotation := s.rotation
    ticket_price := s.economics.ticketPrice
    promotions := promoEntries.map (fun p => p.1)
    concessions_pricing :=
      objFromEntries (s.economics.concessions.map (fun p => (p.1, p.2)))
    cash_on_hand := BASE_CASH
    revenue_gate := s.economics.ticketPrice * 5000
    expenses_promotions := promoEntries.foldl (fun sum p => sum + promoCost p.1) 0 }

/-- The JSON document `getBridgePayload` produces, as written to
`manager_state.json` (field order as in the source object literal). -/
def bridgeToJson (b : BridgePayload) : JsVal :=
  .obj
    [("version", .str b.version),
     ("team", .obj
        [("id", .str b.teamId),
         ("name", .str b.teamName),
         ("lineup", .arr (b.lineup.map playerJson)),
         ("rotation", .arr (b.rotation.map pitcherJson))]),
     ("finance", .obj
        [("ticket_price", .num b.ticket_price),
         ("promotions", .arr (b.promotions.map JsVal.str)),
         ("concessions_pricing", .obj (b.concessions_pricing.map (fun p => (p.1, JsVal.num p.2)))),
         ("cash_on_hand", .num b.cash_on_hand),
         ("revenue", .obj [("gate", .num b.revenue_gate)]),
         ("expenses", .obj [("promotions", .num b.expenses_promotions)])])]

/-- `Array.prototype.map` with a callback that can throw: elements are
processed in order and the first exception aborts the whole map. -/
def mapEx {α β : Type} (f : α → Except Unit β) : List α → Except Unit (List β)
  | [] => .ok []
  | a :: rest => do
      let b ← f a
      let bs ← mapEx f rest
      pure (b :: bs)

/-- A defined property value contributes a binding; `undefined` is
omitted (JS would keep the key with value `undefined`, which
`JSON.stringify` drops and nothing in these modules observes). -/
def optField (k : String) (v : Option JsVal) : List (String × JsVal) :=
  match v with
  | none => []
  | some v => [(k, v)]

/-- `entry => ({ name: entry.name, position: entry.position })` from
`normalizeBridgePayload`; accessing a `null` entry throws. -/
def pickLineupEntry (e : JsVal) : Except Unit JsVal :=
  match e with
  | .null => .error ()
  | e => .ok (.obj (optField "name" (jget e "name") ++ optField "position" (jget e "position")))

/-- `entry => ({ name: entry.name, role: entry.role || 'SP' })` from
`normalizeBridgePayload`. -/
def pickRotationEntry (e : JsVal) : Except Unit JsVal :=
  match e with
  | .null => .error ()
  | e => .ok (.obj (optField "name" (jget e "name") ++ [("role", jsOrV (jget e "role") (.str "SP"))]))

/-- The default promotion flag map as a JS object field list. -/
def defaultPromotionFields : List (String × JsVal) :=
  defaultState.economics.promotions.map (fun p => (p.1, JsVal.bool p.2))

/-- The default concession price map as a JS object. -/
def defaultConcessionsJson : JsVal :=
  .obj (defaultState.economics.concessions.map (fun p => (p.1, JsVal.num p.2)))

/-- The object `normalizeBridgePayload` returns for an object-typed
payload, as a field list (the function itself wraps it). -/
def normalizeBridgeFields (payload : JsVal) : Except Unit (List (String × JsVal)) := do
    let economics := jsOrV (jget payload "finance") (jsOrV (jget payload "economics") (.obj []))
    let team := jsOrV (jget payload "team") (.obj [])
    let teamName := jsOrV (jget team "name")
        (jsOrV (jget payload "teamName") (.str defaultState.teamName))
    let lineup ← match jget team "lineup" with
      | some (.arr entries) => do
          let l ← mapEx pickLineupEntry entries
          pure (JsVal.arr l)
      | _ => pure (JsVal.arr (defaultState.lineup.map playerJson))
    let rotation ← match jget team "rotation" with
      | some (.arr entries) => do
          let l ← mapEx pickRotationEntry entries
          pure (JsVal.arr l)
      | _ => pure (JsVal.arr (defaultState.rotation.map pitcherJson))
    let ticketPrice := jsNumber (jsCoD (jget economics "ticket_price")
        (jsCoD (jget economics "ticketPrice") (.num defaultState.economics.ticketPrice)))
    let promotions ← match jsOrV (jget economics "promotions") (.arr []) with
      | .arr keys =>
          pure (JsVal.obj (objMergeFields (objMergeFields [] defaultPromotionFields)
            (objFromEntries (keys.map (fun k => (jsDisplay k, JsVal.bool true))))))
      | _ => .error ()
    let concessions := jsOrV (jget economics "concessions_pricing")
        (jsOrV (jget economics "concessions") defaultConcessionsJson)
    pure
      [("teamName", teamName),
       ("lineup", lineup),
       ("rotation", rotation),
       ("economics", .obj
          [("ticketPrice", ticketPrice),
           ("promotions", promotions),
           ("concessions", concessions)])]

/-- `normalizeBridgePayload` from `src/web/management.js`.  Returns
`none` for a payload that is not an object (`!payload || typeof payload
!== 'object'`; arrays pass the `typeof` test).  Throws (`Except.error`)
when `economics.promotions` is truthy but not an array (its `.map` is
not a function), or when a lineup/rotation entry is `null`.
`Object.fromEntries` converts each promotion key with `String(key)`. -/
def normalizeBridgePayload (payload : JsVal) : Except Unit (Option JsVal) :=
  match payload with
  | .obj _ | .arr _ => (normalizeBridgeFields payload).map (fun fs => some (.obj fs))
  | _ => .ok none

/-- `mergeState` from `src/web/management.js`: a spread merge of
`incoming` over `base`, with the `economics` object and its
`promotions`/`concessions` maps merged per key.  Throws when `base` or
`incoming` is `null`, or `base.economics` is `null`/`undefined`
(property reads on it), mirroring the `TypeError`s of the source;
`clone` (`structuredClone`) is value copying here. -/
def mergeStateFields (base incoming : JsVal) : Except Unit (List (String × JsVal)) := do
  let baseEco ← jmember base "economics"
  let basePromos ← jmemberO baseEco "promotions"
  let baseConc ← jmemberO baseEco "concessions"
  let incEco ← jmember incoming "economics"
  let promos := JsVal.obj (objMergeFields (spreadO basePromos)
      (spreadFields (jsOrV (jchain incEco "promotions") (.obj []))))
  let concs := JsVal.obj (objMergeFields (spreadO baseConc)
      (spreadFields (jsOrV (jchain incEco "concessions") (.obj []))))
  let ecoFields := objMergeFields (spreadO baseEco) (spreadFields (jsOrV incEco (.obj [])))
  let eco := JsVal.obj (objSet (objSet ecoFields "promotions" promos) "concessions" concs)
  pure (objSet (objMergeFields (spreadFields base) (spreadFields incoming)) "economics" eco)

/-- The merged state object. -/
def mergeState (base incoming : JsVal) : Except Unit JsVal :=
  (mergeStateFields base incoming).map JsVal.obj

/-- The JS object the `state` variable holds right after module load
(`clone(defaultState)`). -/
def defaultStateJson : JsVal := stateToJson defaultState

/-- The management panel's mutable environment: the in-memory `state`
and the `managerState` entry of local storage.  The stored JSON string
is modelled by its parsed value (`JSON.stringify`/`JSON.parse` is the
identity on these `NaN`-free trees). -/
structure World where
  state : JsVal
  storage : Option JsVal

/-- `persist` from `src/web/management.js`:
`localStorage.setItem('managerState', JSON.stringify(state))` (the
status-banner and validation updates it also performs are
display-only). -/
def persist (w : World) : World := { w with storage := some w.state }

/-- Property write `v[k] = x`.  The state is always an object here; a
write to a non-object is a silent no-op, as for primitives outside
strict mode. -/
def jset (v : JsVal) (k : String) (x : JsVal) : JsVal :=
  match v with
  | .obj fs => .obj (objSet fs k x)
  | v => v

/-- Nested write `v[k1][k2] = x` (the inner object always exists for
the manager state). -/
def jset2 (v : JsVal) (k1 k2 : String) (x : JsVal) : JsVal :=
  match jget v k1 with
  | some inner => jset v k1 (jset inner k2 x)
  | none => v

/-- Nested write `v[k1][k2][k3] = x`. -/
def jset3 (v : JsVal) (k1 k2 k3 : String) (x : JsVal) : JsVal :=
  match jget v k1 with
  | some inner => jset v k1 (jset2 inner k2 k3 x)
  | none => v

/-- Write to field `k2` of element `i` of the array at `v[k1]`
(`state.lineup[idx].name = value`); the handlers only exist for
rendered, in-range rows. -/
def jsetListField (v : JsVal) (k1 : String) (i : Nat) (k2 : String) (x : JsVal) : JsVal :=
  match jget v k1 with
  | some (.arr xs) =>
      jset v k1 (.arr (xs.enum.map (fun p => if p.1 = i then jset p.2 k2 x else p.2)))
  | _ => v

/-- `managerInterface.setLineup`: rebuilds `state.lineup` from the
argument's `name`/`position` fields, then persists (the re-render is
display-only). -/
def setLineup (w : World) (lineup : List Player) : World :=
  persist { w with state := jset w.state "lineup" (.arr (lineup.map playerJson)) }

/-- `managerInterface.setRotation`: rebuilds `state.rotation` with
`entry.role || 'SP'` (an empty role string is falsy), then persists. -/
def setRotation (w : World) (rotation : List Pitcher) : World :=
  let entries := rotation.map (fun p => pitcherJson ⟨p.name, if p.role = "" then "SP" else p.role⟩)
  persist { w with state := jset w.state "rotation" (.arr entries) }

/-- An argument to `managerInterface.setEconomicPlan`: each branch is
applied only when present (`plan.ticketPrice !== undefined`, truthy
`plan.promotions`/`plan.concessions`). -/
structure EconomicPlan where
  ticketPrice : Option ℚ
  promotions : Option (List (String × Bool))
  concessions : Option (List (String × ℚ))

/-- `managerInterface.setEconomicPlan`: updates ticket price,
spread-merges promotion and concession maps over the current ones, and
persists once at the end. -/
def setEconomicPlan (w : World) (plan : EconomicPlan) : World :=
  let st1 := match plan.ticketPrice with
    | some tp => jset2 w.state "economics" "ticketPrice" (.num tp)
    | none => w.state
  let st2 := match plan.promotions with
    | some ps => jset2 st1 "economics" "promotions"
        (.obj (objMergeFields (spreadO ((jget st1 "economics").bind (fun e => jget e "promotions")))
          (ps.map (fun p => (p.1, JsVal.bool p.2)))))
    | none => st1
  let st3 := match plan.concessions with
    | some cs => jset2 st2 "economics" "concessions"
        (.obj (objMergeFields (spreadO ((jget st2 "economics").bind (fun e => jget e "concessions")))
          (cs.map (fun p => (p.1, JsVal.num p.2)))))
    | none => st2
  persist { w with state := st3 }

/-- The lineup-row name input handler: `state.lineup[idx].name =
e.target.value; persist()`. -/
def editLineupName (w : World) (idx : Nat) (value : String) : World :=
  persist { w with state := jsetListField w.state "lineup" idx "name" (.str value) }

/-- The lineup-row position select handler. -/
def editLineupPosition (w : World) (idx : Nat) (value : String) : World :=
  persist { w with state := jsetListField w.state "lineup" idx "position" (.str value) }

/-- The rotation-row name input handler. -/
def editRotationName (w : World) (idx : Nat) (value : String) : World :=
  persist { w with state := jsetListField w.state "rotation" idx "name" (.str value) }

/-- The rotation-row role select handler. -/
def editRotationRole (w : World) (idx : Nat) (value : String) : World :=
  persist { w with state := jsetListField w.state "rotation" idx "role" (.str value) }

/-- The ticket-price slider handler: `state.economics.ticketPrice =
Number(e.target.value)` on the input's string value, then persist. -/
def editTicketPrice (w : World) (value : String) : World :=
  persist { w with state := jset2 w.state "economics" "ticketPrice" (jsNumber (.str value)) }

/-- A promotion chip checkbox handler:
`state.economics.promotions[promoKey] = e.target.checked`, then
persist. -/
def togglePromotion (w : World) (key : String) (checked : Bool) : World :=
  persist { w with state := jset3 w.state "economics" "promotions" key (.bool checked) }

/-- A concession-row number input handler:
`state.economics.concessions[item] = Number(e.target.value)`, then
persist. -/
def editConcession (w : World) (item : String) (value : String) : World :=
  persist { w with state := jset3 w.state "economics" "concessions" item (jsNumber (.str value)) }

/-- The observable outcome of an upload: the state was replaced and
persisted, the upload was silently ignored (`normalizeBridgePayload`
returned `null` so the `if (incoming)` body is skipped), or the `catch`
block reported an error status. -/
inductive UploadOutcome where
  | applied
  | ignored
  | errorReported
deriving DecidableEq, Repr

/-- The `uploadInput` change handler of `src/web/management.js` on a
chosen file.  `content` is the file text's parse result (`none` when
`JSON.parse` throws).  On success the state becomes
`mergeState(defaultState, incoming)` and is persisted; an exception
anywhere in the `try` block reaches the `catch`, which only reports an
error; a `null` normalization result does nothing at all. -/
def uploadHandler (w : World) (content : Option JsVal) : World × UploadOutcome :=
  match content with
  | none => (w, .errorReported)
  | some parsed =>
    match normalizeBridgePayload parsed with
    | .error _ => (w, .errorReported)
    | .ok none => (w, .ignored)
    | .ok (some incoming) =>
      match mergeState defaultStateJson incoming with
      | .error _ => (w, .errorReported)
      | .ok merged => (persist { w with state := merged }, .applied)

/-- `loadLocalState` from `src/web/management.js`.  `raw` models
`localStorage.getItem('managerState')`: `none` when no entry exists,
`some none` when the stored string does not parse, `some (some j)` when
it parses to `j`.  Any exception in the `try` block (parse failure, or
`mergeState` throwing) yields `null`. -/
def loadLocalState (raw : Option (Option JsVal)) : Option JsVal :=
  match raw with
  | none => none
  | some none => none
  | some (some j) =>
      match mergeState defaultStateJson j with
      | .ok m => some m
      | .error _ => none

/-- `loadBridgeFile` from `src/web/management.js`.  `fetched` models the
fetch of `manager_state.json`: `none` when the fetch fails, the
response is not ok, or its body is not valid JSON — every such path
returns `null` — and `some payload` otherwise.  A throwing
`normalizeBridgePayload` is caught and also yields `null`. -/
def loadBridgeFile (fetched : Option JsVal) : Option JsVal :=
  match fetched with
  | none => none
  | some payload =>
      match normalizeBridgePayload payload with
      | .ok r => r
      | .error _ => none

/-- `bootstrapState` from `src/web/management.js`: the state becomes
`mergeState(defaultState, fileState || localState || defaultState)`
(the renders and status banner it then updates are display-only). -/
def bootstrapState (fetched : Option JsVal) (raw : Option (Option JsVal)) :
    Except Unit JsVal :=
  mergeState defaultStateJson
    (jsOrV (loadBridgeFile fetched) (jsOrV (loadLocalState raw) defaultStateJson))

/-- A normalized pitch event as produced by `normalizeEvent` in
`src/web/viewer.js`.  The source copies raw JSON values through with
defaults but no type coercion, so every field is a `JsVal`. -/
structure NEvent where
  number : JsVal
  batter : JsVal
  outcome : JsVal
  detail : JsVal
  balls_before : JsVal
  strikes_before : JsVal
  outs_before : JsVal
  balls_after : JsVal
  strikes_after : JsVal
  outs_after : JsVal
  bases_before : JsVal
  bases_after : JsVal
  runs_scored : JsVal
  total_runs : JsVal
  contact_quality : JsVal
  crowd_energy_before : JsVal
  crowd_energy_after : JsVal
  crowd_modifiers : JsVal

/-- Truthiness of a possibly-undefined value. -/
def otruthy : Option JsVal → Bool
  | none => false
  | some v => truthy v

/-- `.slice(0, 3)`: arrays and strings take their first three elements;
any other receiver has no `slice` method and throws.  Note a shorter
array stays short — `slice` never pads. -/
def jsSlice3 : JsVal → Except Unit JsVal
  | .arr xs => .ok (.arr (xs.take 3))
  | .str s => .ok (.str (s.take 3))
  | _ => .error ()

/-- The default base-occupancy triple `[false, false, false]`. -/
def basesDefault : JsVal := .arr [.bool false, .bool false, .bool false]

/-- The nested-shape branch of `normalizeEvent` (raw events with truthy
`context` and `outcome`). -/
def normalizeNested (rawEvent c o : JsVal) (idx : Nat) : Except Unit NEvent := do
  let countBefore := jsOrV (jchain (jget c "count") "before") (.obj [])
  let countAfter := jsOrV (jchain (jget c "count") "after") (.obj [])
  let outs := jsOrV (jget c "outs") (.obj [])
  let bases := jsOrV (jget c "bases") (.obj [])
  let crowd := jsOrV (jget c "crowd") (.obj [])
  let bb ← jsSlice3 (jsOrV (jget bases "before") basesDefault)
  let ba ← jsSlice3 (jsOrV (jget bases "after") basesDefault)
  pure
    { number := jsCoD (jget c "pitch_number") (.num (idx + 1))
      batter := jsOrV (jget c "batter") (.str "Unknown")
      outcome := jsOrV (jget o "result") (.str "unknown")
      detail := jsOrV (jget o "detail") (.str "")
      balls_before := jsCoD (jget countBefore "balls") (.num 0)
      strikes_before := jsCoD (jget countBefore "strikes") (.num 0)
      outs_before := jsCoD (jget outs "before") (.num 0)
      balls_after := jsCoD (jsCo (jget countAfter "balls") (jget countBefore "balls")) (.num 0)
      strikes_after := jsCoD (jsCo (jget countAfter "strikes") (jget countBefore "strikes")) (.num 0)
      outs_after := jsCoD (jsCo (jget outs "after") (jget outs "before")) (.num 0)
      bases_before := bb
      bases_after := ba
      runs_scored := jsCoD (jget o "runs_scored") (.num 0)
      total_runs := jsCoD (jget o "total_runs") (.num 0)
      contact_quality := jsCoD (jget o "contact_quality") (.num 0)
      crowd_energy_before := jsCoD (jget crowd "energy_before") (.num 0)
      crowd_energy_after := jsCoD (jget crowd "energy_after") (.num 0)
      crowd_modifiers := jsOrV (jchain (jget rawEvent "modifiers") "crowd") (.obj []) }

/-- The flat-shape branch of `normalizeEvent`. -/
def normalizeFlat (r : JsVal) (idx : Nat) : Except Unit NEvent := do
  let bb ← jsSlice3 (jsOrV (jget r "bases_before") basesDefault)
  let ba ← jsSlice3 (jsOrV (jget r "bases_after") basesDefault)
  pure
    { number := jsCoD (jget r "number") (.num (idx + 1))
      batter := jsOrV (jget r "batter") (.str "Unknown")
      outcome := jsOrV (jget r "outcome") (.str "unknown")
      detail := jsOrV (jget r "detail") (.str "")
      balls_before := jsCoD (jget r "balls_before") (.num 0)
      strikes_before := jsCoD (jget r "strikes_before") (.num 0)
      outs_before := jsCoD (jget r "outs_before") (.num 0)
      balls_after := jsCoD (jsCo (jget r "balls_after") (jget r "balls_before")) (.num 0)
      strikes_after := jsCoD (jsCo (jget r "strikes_after") (jget r "strikes_before")) (.num 0)
      outs_after := jsCoD (jsCo (jget r "outs_after") (jget r "outs_before")) (.num 0)
      bases_before := bb
      bases_after := ba
      runs_scored := jsCoD (jget r "runs_scored") (.num 0)
      total_runs := jsCoD (jget r "total_runs") (.num 0)
      contact_quality := jsCoD (jget r "contact_quality") (.num 0)
      crowd_energy_before := jsCoD (jget r "crowd_energy_before") (.num 0)
      crowd_energy_after := jsCoD (jget r "crowd_energy_after") (.num 0)
      crowd_modifiers := jsOrV (jget r "crowd_modifiers") (.obj []) }

/-- `normalizeEvent` from `src/web/viewer.js`: a falsy raw event
normalizes to `null`; a raw event with truthy `context` and `outcome`
uses the nested shape, anything else the flat shape.  The only throwing
operation is `.slice` on a truthy non-array, non-string bases value. -/
def normalizeEvent (rawEvent : JsVal) (idx : Nat) : Except Unit (Option NEvent) :=
  if !(truthy rawEvent) then .ok none
  else
    match jget rawEvent "context", jget rawEvent "outcome" with
    | some c, some o =>
        if truthy c && truthy o then (normalizeNested rawEvent c o idx).map some
        else (normalizeFlat rawEvent idx).map some
    | _, _ => (normalizeFlat rawEvent idx).map some

/-- `(payload.events || []).map(normalizeEvent).filter(Boolean)` from
`loadEvents`: a truthy non-array `events` value has no `.map` and
throws. -/
def normalizeAll (payload : JsVal) : Except Unit (List NEvent) :=
  match jsOrV (jget payload "events") (.arr []) with
  | .arr raws => do
      let opts ← mapEx (fun p => normalizeEvent p.2 p.1) raws.enum
      pure (opts.filterMap id)
  | _ => .error ()

/-- An element of `Array.prototype.join`: `null` and `undefined` render
empty. -/
def joinElem : Option JsVal → String
  | none => ""
  | some .null => ""
  | some v => jsDisplay v

/-- `versionFromPayload` from `src/web/viewer.js`:
`[payload.updated_at, payload.game_id, payload.events?.length].join('|')`.
Throws when `payload` is `null` (property access). -/
def versionFromPayload (payload : JsVal) : Except Unit String := do
  let u ← jmember payload "updated_at"
  let g ← jmember payload "game_id"
  let ev ← jmember payload "events"
  pure (joinElem u ++ "|" ++ joinElem g ++ "|" ++ joinElem (jchain ev "length"))

/-- The replay viewer's mutable module state: the normalized events, the
playback cursor, the playing flag and play/pause button label, the
animation tick, the applied feed fingerprint, the play-by-play log
entries, and the status banner (message, css state). -/
structure ViewerState where
  events : List NEvent
  currentIndex : Nat
  playing : Bool
  playBtnLabel : String
  lastTick : ℚ
  feedVersion : Option String
  log : List String
  status : Option (String × String)

/-- A JS number or `NaN` — the receivers on which `.toFixed` exists. -/
def isNumLike : JsVal → Bool
  | .num _ => true
  | .nan => true
  | _ => false

/-- Whether `updateEnergy` completes: `value.toFixed(1)` needs a
numeric `crowd_energy_after`, `Object.entries(modifiers)` throws on
`null`, and each modifier value needs `.toFixed(3)`. -/
def energyOk (e : NEvent) : Bool :=
  isNumLike e.crowd_energy_after &&
  (match e.crowd_modifiers with
   | .null => false
   | v => (spreadFields v).all (fun p => isNumLike p.2))

/-- The `'1'`/`'-'` base-occupancy string of `updateLog`. -/
def basesStr (l : List JsVal) : String :=
  String.join (l.map (fun b => if truthy b then "1" else "-"))

/-- The log entry `updateLog` appends for an event whose bases fields
are the arrays `bb` and `ba`. -/
def logLine (e : NEvent) (bb ba : List JsVal) : String :=
  "#" ++ jsDisplay e.number ++ " " ++ jsDisplay e.batter ++ ": " ++ jsDisplay e.outcome ++
    " (" ++ jsDisplay e.balls_before ++ "-" ++ jsDisplay e.strikes_before ++ " → " ++
    jsDisplay e.balls_after ++ "-" ++ jsDisplay e.strikes_after ++ "), bases " ++
    basesStr bb ++ " → " ++ basesStr ba

/-- `render` from `src/web/viewer.js`, as its effect on the log (canvas
drawing and DOM widgets are display-only).  `drawDiamond` is total;
`paintPlayText` throws unless `outcome` is a string
(`.toUpperCase()`); `updateLog` throws unless both bases fields are
arrays (`.map`), and appends its entry before `updateEnergy` runs; the
returned flag records whether the whole of `render` completed. -/
def render (e : NEvent) (log : List String) : List String × Bool :=
  match e.outcome with
  | .str _ =>
      match e.bases_before, e.bases_after with
      | .arr bb, .arr ba => (log ++ [logLine e bb ba], energyOk e)
      | _, _ => (log, false)
  | _ => (log, false)

/-- `stepOnce` from `src/web/viewer.js`.  The returned flag records
whether the call completed without an exception; when `render` throws,
the exception propagates before `currentIndex += 1` runs. -/
def stepOnce (st : ViewerState) : ViewerState × Bool :=
  if h : st.currentIndex < st.events.length then
    let e := st.events.get ⟨st.currentIndex, h⟩
    let r := render e st.log
    if r.2 then
      let st1 := { st with log := r.1, currentIndex := st.currentIndex + 1 }
      if st.currentIndex + 1 ≥ st.events.length then
        ({ st1 with playing := false, playBtnLabel := "Play" }, true)
      else (st1, true)
    else ({ st with log := r.1 }, false)
  else (st, true)

/-- The `playPauseBtn` click handler: toggle `playing` and relabel the
button from the new value. -/
def playPauseClick (st : ViewerState) : ViewerState :=
  { st with playing := !st.playing, playBtnLabel := if !st.playing then "Pause" else "Play" }

/-- The `stepBtn` click handler: pause, then `stepOnce`. -/
def stepClick (st : ViewerState) : ViewerState × Bool :=
  stepOnce { st with playing := false, playBtnLabel := "Play" }

/-- The `while (currentIndex < events.length) stepOnce()` loop of the
`skipBtn` handler, fuel-indexed: each completed iteration raises
`currentIndex` by one and leaves `events` unchanged, so the fuel
`events.length - currentIndex` supplied by `skipClick` is exact.  An
exception from `stepOnce` aborts the loop (flag `false`). -/
def skipAux : Nat → ViewerState → ViewerState × Bool
  | 0, st => (st, true)
  | n + 1, st =>
      if st.currentIndex < st.events.length then
        let r := stepOnce st
        if r.2 then skipAux n r.1 else (r.1, false)
      else (st, true)

/-- The `skipBtn` click handler: pause, then step to the end of the
replay. -/
def skipClick (st : ViewerState) : ViewerState × Bool :=
  let st0 := { st with playing := false, playBtnLabel := "Play" }
  skipAux (st0.events.length - st0.currentIndex) st0

/-- `applyEvents` from `src/web/viewer.js`: replace the events, clear
the log, rewind, restart playback, set the status banner, and step onto
the first event (whose `render` may throw — the flag records that). -/
def applyEvents (normalizedEvents : List NEvent) (st : ViewerState) : ViewerState × Bool :=
  let st1 := { st with
               events := normalizedEvents
               log := []
               currentIndex := 0
               lastTick := 0
               playing := true
               playBtnLabel := "Pause" }
  if normalizedEvents.length = 0 then
    ({ st1 with status := some ("No events available in replay feed.", "error") }, true)
  else
    let okMsg := "Loaded " ++ toString normalizedEvents.length ++ " pitches from replay feed."
    stepOnce { st1 with status := some (okMsg, "success") }

/-- The status banner the `catch` block of `loadEvents` sets (its
message carries the error detail; only the fact of an error matters
here). -/
def failStatus : Option (String × String) := some ("Failed to load feed", "error")

/-- `loadEvents` from `src/web/viewer.js`.  `fetched` models
`fetchReplayPayload()`: `none` when the fetch rejects, the response is
not ok, or the body is not JSON; `some payload` otherwise.  The version
and the normalized events are computed before the fingerprint check;
any exception reaches the `catch`, which sets the failure status (and
re-throws, which `refreshLoop` swallows). -/
def loadEvents (silent : Bool) (fetched : Option JsVal) (st : ViewerState) : ViewerState :=
  let st0 := if silent then st else { st with status := some ("Loading replay feed…", "loading") }
  match fetched with
  | none => { st0 with status := failStatus }
  | some payload =>
    match versionFromPayload payload with
    | .error _ => { st0 with status := failStatus }
    | .ok version =>
      match normalizeAll payload with
      | .error _ => { st0 with status := failStatus }
      | .ok normalizedEvents =>
        if version != "" && st0.feedVersion == some version && silent then st0
        else
          let st1 := { st0 with feedVersion := some version }
          let r := applyEvents normalizedEvents st1
          if r.2 then r.1 else { r.1 with status := failStatus }

/-- The fully-defaulted normalized event: what `normalizeEvent` yields
at index `idx` when every optional field of the raw event is absent. -/
def defaultNEvent (idx : Nat) : NEvent :=
  { number := .num (idx + 1), batter := .str "Unknown", outcome := .str "unknown", detail := .str ""
    balls_before := .num 0, strikes_before := .num 0, outs_before := .num 0
    balls_after := .num 0, strikes_after := .num 0, outs_after := .num 0
    bases_before := basesDefault, bases_after := basesDefault
    runs_scored := .num 0, total_runs := .num 0, contact_quality := .num 0
    crowd_energy_before := .num 0, crowd_energy_after := .num 0, crowd_modifiers := .obj [] }

/-- A manager state with every promotion switched off — in particular
the default-active `fireworks` and `themeNight`. -/
def promoOffState : ManagerState :=
  { defaultState with economics :=
    { defaultState.economics with promotions :=
        [("fireworks", false), ("kidsDay", false), ("themeNight", false), ("giveaway", false)] } }

/-- Reads the `fireworks` entry of the `economics.promotions` map out of
a normalization result, as a `Bool`. -/
def fireworksFlag : Except Unit (Option JsVal) → Option Bool
  | .ok (some v) =>
      match (jget v "economics").bind (fun e => (jget e "promotions").bind (fun p => jget p "fireworks")) with
      | some (.bool b) => some b
      | _ => none
  | _ => none

/-- A normalized event whose `bases_before` is the string `"abc"` —
produced from the raw flat event `{ bases_before: "abc" }`, whose
truthy string is sliced to itself — on which `updateLog`'s
`bases_before.map` throws. -/
def stringBasesEvent : NEvent := { defaultNEvent 0 with bases_before := .str "abc" }

/-- A viewer state holding one event whose `render` throws. -/
def stuckViewerState : ViewerState :=
  { events := [stringBasesEvent], currentIndex := 0, playing := true, playBtnLabel := "Pause"
    lastTick := 0, feedVersion := none, log := [], status := none }

/-- A viewer state with one well-formed event, used to witness the
playback invariants. -/
def witnessViewerState : ViewerState :=
  { events := [defaultNEvent 0], currentIndex := 0, playing := true, playBtnLabel := "Pause"
    lastTick := 0, feedVersion := none, log := [], status := none }

/-- The fresh world at module load: default state, nothing stored. -/
def freshWorld : World := { state := defaultStateJson, storage := none }

/-- A well-formed bridge file payload used to witness the bootstrap
precedence: team name `"Visitors"`, empty promotions list. -/
def witnessBridgeJson : JsVal :=
  .obj [("team", .obj [("name", .str "Visitors")]),
        ("finance", .obj [("ticket_price", .num 30), ("promotions", .arr [])])]

/-- A cached local-storage state used to witness the bootstrap
fall-through. -/
def witnessCacheJson : JsVal := .obj [("teamName", .str "Cached Club")]

/-- The state the bridge witness file normalizes to. -/
def bridgeNormResult : JsVal :=
  (((normalizeBridgePayload witnessBridgeJson).toOption).join).getD .null

/-- The state the witness cache loads to. -/
def cacheLoadResult : JsVal :=
  (loadLocalState (some (some witnessCacheJson))).getD .null

/-- Folding promotion costs as `reduce` does equals summing over the
mapped list. -/
theorem foldl_add_promoCost (l : List (String × Bool)) (a : ℚ) :
    l.foldl (fun sum p => sum + promoCost p.1) a = a + (l.map (fun p => promoCost p.1)).sum := by
  induction l generalizing a with
  | nil => simp
  | cons x xs ih => simp [List.foldl_cons, ih]; ring

/-- Claim C2: the exported bridge payload's finance figures are derived
exactly as: `revenue.gate` is ticket price times 5000,
`finance.promotions` lists exactly the keys of the promotions flagged
active, `expenses.promotions` is the sum of the fixed costs of exactly
those active promotions (fireworks 15000, kidsDay 5000, themeNight
8000, giveaway 12000), and `cash_on_hand` is 250000. -/
theorem bridge_finance_figures (s : ManagerState) :
    (getBridgePayload s).revenue_gate = s.economics.ticketPrice * 5000 ∧
    (getBridgePayload s).promotions =
      (s.economics.promotions.filter (fun p => p.2)).map (fun p => p.1) ∧
    (getBridgePayload s).expenses_promotions =
      ((s.economics.promotions.filter (fun p => p.2)).map (fun p => promoCost p.1)).sum ∧
    (getBridgePayload s).cash_on_hand = 250000 ∧
    promoCost "fireworks" = 15000 ∧ promoCost "kidsDay" = 5000 ∧
    promoCost "themeNight" = 8000 ∧ promoCost "giveaway" = 12000 := by
  refine ⟨rfl, rfl, ?_, rfl, rfl, rfl, rfl, rfl⟩
  show (s.economics.promotions.filter (fun p => p.2)).foldl (fun sum p => sum + promoCost p.1) 0 = _
  rw [foldl_add_promoCost]
  ring

/-- Claim C5: `normalizeEvent` accepts both event shapes and fills every
missing field with its default — pitch number `idx + 1`, batter
`"Unknown"`, outcome `"unknown"`, detail `""`, every count `0` with
after-counts falling back to before-counts first, bases
`[false, false, false]`, crowd modifiers `{}` — and a `null` raw event
normalizes to `null` and is filtered out of the events list. -/
theorem normalizeEvent_defaults :
    (∀ idx, normalizeEvent .null idx = .ok none) ∧
    (∀ idx, normalizeEvent (.obj []) idx = .ok (some (defaultNEvent idx))) ∧
    (∀ idx, normalizeEvent (.obj [("context", .obj []), ("outcome", .obj [])]) idx =
      .ok (some (defaultNEvent idx))) ∧
    (∀ idx b s o, normalizeEvent
        (.obj [("balls_before", .num b), ("strikes_before", .num s), ("outs_before", .num o)]) idx =
      .ok (some { defaultNEvent idx with
                  balls_before := .num b, strikes_before := .num s, outs_before := .num o,
                  balls_after := .num b, strikes_after := .num s, outs_after := .num o })) ∧
    normalizeAll (.obj [("events", .arr [.null, .bool false])]) = .ok [] := by
  exact ⟨fun idx => rfl, fun idx => rfl, fun idx => rfl, fun idx b s o => rfl, rfl⟩

/-- Claim C6, counterexample: a raw event supplying a one-element bases
array normalizes to a one-element `bases_before` — `.slice(0, 3)`
truncates but never pads, so the result is not an array of exactly
three occupancy values. -/
theorem normalize_bases_cex :
    normalizeEvent (.obj [("bases_before", .arr [.bool true])]) 0 =
      .ok (some { defaultNEvent 0 with bases_before := .arr [.bool true] }) ∧
    [JsVal.bool true].length ≠ 3 := ⟨rfl, by decide⟩

/-- Claim C6, amended: in both accepted raw-event shapes — the flat
shape with `bases_before`/`bases_after` arrays, and the nested shape
with `context.bases.before`/`context.bases.after` arrays — the
normalized bases are the first `min 3 n` elements of the supplied
array: at most three values, exactly three only when at least three are
supplied (or the field is absent, when the three-element default is
used). -/
theorem normalize_bases_amended :
    (∀ (fs : List (String × JsVal)) (idx : Nat) (xs ys : List JsVal),
      jget (.obj fs) "bases_before" = some (.arr xs) →
      jget (.obj fs) "bases_after" = some (.arr ys) →
      (otruthy (jget (.obj fs) "context") && otruthy (jget (.obj fs) "outcome")) = false →
      (normalizeEvent (.obj fs) idx).map (Option.map (fun e => (e.bases_before, e.bases_after))) =
        .ok (some (.arr (xs.take 3), .arr (ys.take 3))) ∧
      (xs.take 3).length ≤ 3 ∧ (ys.take 3).length ≤ 3) ∧
    (∀ (fs : List (String × JsVal)) (idx : Nat) (xs ys : List JsVal) (c o bs : JsVal),
      jget (.obj fs) "context" = some c → truthy c = true →
      jget (.obj fs) "outcome" = some o → truthy o = true →
      jget c "bases" = some bs → truthy bs = true →
      jget bs "before" = some (.arr xs) →
      jget bs "after" = some (.arr ys) →
      (normalizeEvent (.obj fs) idx).map (Option.map (fun e => (e.bases_before, e.bases_after))) =
        .ok (some (.arr (xs.take 3), .arr (ys.take 3))) ∧
      (xs.take 3).length ≤ 3 ∧ (ys.take 3).length ≤ 3) := by
  constructor
  · intro fs idx xs ys hb ha hflat
    have hfl : normalizeFlat (.obj fs) idx = .ok
        { number := jsCoD (jget (.obj fs) "number") (.num (idx + 1))
          batter := jsOrV (jget (.obj fs) "batter") (.str "Unknown")
          outcome := jsOrV (jget (.obj fs) "outcome") (.str "unknown")
          detail := jsOrV (jget (.obj fs) "detail") (.str "")
          balls_before := jsCoD (jget (.obj fs) "balls_before") (.num 0)
          strikes_before := jsCoD (jget (.obj fs) "strikes_before") (.num 0)
          outs_before := jsCoD (jget (.obj fs) "outs_before") (.num 0)
          balls_after := jsCoD (jsCo (jget (.obj fs) "balls_after") (jget (.obj fs) "balls_before")) (.num 0)
          strikes_after := jsCoD (jsCo (jget (.obj fs) "strikes_after") (jget (.obj fs) "strikes_before")) (.num 0)
          outs_after := jsCoD (jsCo (jget (.obj fs) "outs_after") (jget (.obj fs) "outs_before")) (.num 0)
          bases_before := .arr (xs.take 3)
          bases_after := .arr (ys.take 3)
          runs_scored := jsCoD (jget (.obj fs) "runs_scored") (.num 0)
          total_runs := jsCoD (jget (.obj fs) "total_runs") (.num 0)
          contact_quality := jsCoD (jget (.obj fs) "contact_quality") (.num 0)
          crowd_energy_before := jsCoD (jget (.obj fs) "crowd_energy_before") (.num 0)
          crowd_energy_after := jsCoD (jget (.obj fs) "crowd_energy_after") (.num 0)
          crowd_modifiers := jsOrV (jget (.obj fs) "crowd_modifiers") (.obj []) } := by
      unfold normalizeFlat
      rw [hb, ha]
      rfl
    have hne : normalizeEvent (.obj fs) idx = (normalizeFlat (.obj fs) idx).map some := by
      unfold normalizeEvent
      rcases hc : jget (.obj fs) "context" with _ | c <;>
        rcases ho : jget (.obj fs) "outcome" with _ | o <;> try rfl
      rw [hc, ho] at hflat
      simp only [otruthy] at hflat
      show (if truthy c && truthy o then (normalizeNested (JsVal.obj fs) c o idx).map some
            else (normalizeFlat (JsVal.obj fs) idx).map some) =
          (normalizeFlat (JsVal.obj fs) idx).map some
      rw [hflat]
      rfl
    refine ⟨?_, ?_, ?_⟩
    · rw [hne, hfl]; rfl
    · simp [List.length_take]
    · simp [List.length_take]
  · intro fs idx xs ys c o bs hc htc ho hto hbs hbt hbb hba
    have h1 : normalizeEvent (.obj fs) idx = (normalizeNested (.obj fs) c o idx).map some := by
      unfold normalizeEvent
      rw [hc, ho]
      show (if truthy c && truthy o then (normalizeNested (JsVal.obj fs) c o idx).map some
            else (normalizeFlat (JsVal.obj fs) idx).map some) = _
      rw [htc, hto]
      rfl
    refine ⟨?_, ?_, ?_⟩
    · rw [h1]
      unfold normalizeNested
      simp only [hbs]
      rw [show jsOrV (some bs) (.obj []) = bs from by simp [jsOrV, hbt]]
      simp only [hbb, hba]
      rfl
    · simp [List.length_take]
    · simp [List.length_take]

/-- Witness for the amended C6: a flat event with a four-element and an
empty bases array, and a nested event with a one-element
`context.bases.before` and a four-element `context.bases.after`. -/
theorem normalize_bases_amended_witness :
    ((normalizeEvent (.obj [("bases_before", .arr [.bool true, .bool false, .bool true, .bool true]),
                            ("bases_after", .arr [])]) 0).map
        (Option.map (fun e => (e.bases_before, e.bases_after))) =
      .ok (some (.arr ([JsVal.bool true, .bool false, .bool true, .bool true].take 3),
                 .arr (([] : List JsVal).take 3))) ∧
     (([JsVal.bool true, .bool false, .bool true, .bool true]).take 3).length ≤ 3 ∧
     (([] : List JsVal).take 3).length ≤ 3) ∧
    ((normalizeEvent (.obj [("context", .obj [("bases", .obj [("before", .arr [.bool true]),
                             ("after", .arr [.bool false, .bool true, .bool false, .bool true])])]),
                            ("outcome", .obj [])]) 0).map
        (Option.map (fun e => (e.bases_before, e.bases_after))) =
      .ok (some (.arr ([JsVal.bool true].take 3),
                 .arr ([JsVal.bool false, .bool true, .bool false, .bool true].take 3))) ∧
     (([JsVal.bool true]).take 3).length ≤ 3 ∧
     (([JsVal.bool false, .bool true, .bool false, .bool true]).take 3).length ≤ 3) :=
  ⟨normalize_bases_amended.1 _ 0 _ _ rfl rfl rfl,
   normalize_bases_amended.2 _ 0 _ _ _ _ _ rfl rfl rfl rfl rfl rfl rfl rfl⟩

/-- `stepOnce` never touches the events list, the feed fingerprint, the
status banner, or the animation tick. -/
theorem stepOnce_frame (st : ViewerState) :
    (stepOnce st).1.events = st.events ∧
    (stepOnce st).1.feedVersion = st.feedVersion ∧
    (stepOnce st).1.status = st.status ∧
    (stepOnce st).1.lastTick = st.lastTick := by
  unfold stepOnce
  split
  · dsimp only
    split
    · split <;> exact ⟨rfl, rfl, rfl, rfl⟩
    · exact ⟨rfl, rfl, rfl, rfl⟩
  · exact ⟨rfl, rfl, rfl, rfl⟩

/-- `render` only ever appends to the play-by-play log. -/
theorem render_appends (e : NEvent) (log : List String) :
    ∃ tail, (render e log).1 = log ++ tail := by
  unfold render
  rcases e.outcome with _ | _ | _ | _ | _ | _ | _ <;> try exact ⟨[], (List.append_nil log).symm⟩
  rcases e.bases_before with _ | _ | _ | _ | _ | _ | _ <;>
    rcases e.bases_after with _ | _ | _ | _ | _ | _ | _ <;>
    first
      | exact ⟨[], (List.append_nil log).symm⟩
      | exact ⟨_, rfl⟩

/-- Claim C8: the viewer consumes pitch events read-only — `stepOnce`
leaves the events list (and so every event in it) unchanged, touching
only the cursor, the playing flag, and display outputs (log, button
label); `render` only appends a log entry. -/
theorem viewer_events_readonly (st : ViewerState) :
    (stepOnce st).1.events = st.events ∧
    (stepOnce st).1.feedVersion = st.feedVersion ∧
    (stepOnce st).1.status = st.status ∧
    (stepOnce st).1.lastTick = st.lastTick ∧
    (∀ e log, ∃ tail, (render e log).1 = log ++ tail) :=
  ⟨(stepOnce_frame st).1, (stepOnce_frame st).2.1, (stepOnce_frame st).2.2.1,
   (stepOnce_frame st).2.2.2, fun e log => render_appends e log⟩

/-- Claim C7: every mutation of the manager state through the panel —
the `managerInterface` setters, every lineup/rotation/ticket/promotion/
concession form edit, and a successful bridge-file upload — ends in
`persist`, so local storage always holds the state just written; a
failed upload changes neither. -/
theorem mutations_persist_state :
    (∀ w lineup, (setLineup w lineup).storage = some (setLineup w lineup).state) ∧
    (∀ w rotation, (setRotation w rotation).storage = some (setRotation w rotation).state) ∧
    (∀ w plan, (setEconomicPlan w plan).storage = some (setEconomicPlan w plan).state) ∧
    (∀ w idx v, (editLineupName w idx v).storage = some (editLineupName w idx v).state) ∧
    (∀ w idx v, (editLineupPosition w idx v).storage = some (editLineupPosition w idx v).state) ∧
    (∀ w idx v, (editRotationName w idx v).storage = some (editRotationName w idx v).state) ∧
    (∀ w idx v, (editRotationRole w idx v).storage = some (editRotationRole w idx v).state) ∧
    (∀ w v, (editTicketPrice w v).storage = some (editTicketPrice w v).state) ∧
    (∀ w k b, (togglePromotion w k b).storage = some (togglePromotion w k b).state) ∧
    (∀ w item v, (editConcession w item v).storage = some (editConcession w item v).state) ∧
    (∀ w c, (uploadHandler w c).1.storage = some (uploadHandler w c).1.state ∨
            (uploadHandler w c).1 = w) := by
  refine ⟨fun w l => rfl, fun w r => rfl, fun w p => rfl, fun w i v => rfl, fun w i v => rfl,
          fun w i v => rfl, fun w i v => rfl, fun w v => rfl, fun w k b => rfl,
          fun w i v => rfl, ?_⟩
  intro w c
  rcases c with _ | p
  · exact Or.inr rfl
  · rcases hn : normalizeBridgePayload p with e | o
    · right; simp [uploadHandler, hn]
    · rcases o with _ | inc
      · right; simp [uploadHandler, hn]
      · rcases hm : mergeState defaultStateJson inc with e | m
        · right; simp [uploadHandler, hn, hm]
        · left; simp [uploadHandler, hn, hm, persist]

/-- Claim C10, counterexample: uploading a file whose JSON is the number
`5` makes `normalizeBridgePayload` return `null`; the handler leaves the
world untouched but reports nothing — no error status — contradicting
the claim that an error status is reported in that case. -/
theorem upload_silent_null_cex :
    uploadHandler freshWorld (some (.num 5)) = (freshWorld, .ignored) ∧
    UploadOutcome.ignored ≠ UploadOutcome.errorReported := ⟨rfl, by decide⟩

/-- Claim C10, amended: a JSON parse failure or a throwing
`normalizeBridgePayload` (for example a payload whose
`economics.promotions` is an object rather than an array) leaves the
state and its storage mirror unchanged and reports an error status; a
`null` normalization result also leaves both unchanged but reports no
status at all. -/
theorem upload_error_atomicity (w : World) :
    uploadHandler w none = (w, .errorReported) ∧
    (∀ p, normalizeBridgePayload p = .error () → uploadHandler w (some p) = (w, .errorReported)) ∧
    (∀ p, normalizeBridgePayload p = .ok none → uploadHandler w (some p) = (w, .ignored)) ∧
    normalizeBridgePayload (.obj [("economics", .obj [("promotions", .obj [])])]) = .error () := by
  refine ⟨rfl, ?_, ?_, rfl⟩
  · intro p h
    simp [uploadHandler, h]
  · intro p h
    simp [uploadHandler, h]

/-- Witness for the amended C10 at a fresh world with the two concrete
bad payloads. -/
theorem upload_error_atomicity_witness :
    uploadHandler freshWorld (some (.obj [("economics", .obj [("promotions", .obj [])])])) =
      (freshWorld, .errorReported) ∧
    uploadHandler freshWorld (some (.str "x")) = (freshWorld, .ignored) :=
  ⟨(upload_error_atomicity freshWorld).2.1 _ rfl,
   (upload_error_atomicity freshWorld).2.2.1 _ rfl⟩

/-- A string of the shape `a ++ "|" ++ b ++ "|" ++ c` is never empty. -/
theorem append_pipes_ne_empty (a b c : String) : a ++ "|" ++ b ++ "|" ++ c ≠ "" := by
  intro h
  have hl := congrArg String.length h
  simp only [String.length_append, show ("|" : String).length = 1 from rfl,
    show ("" : String).length = 0 from rfl] at hl
  omega

/-- A computed feed fingerprint is always truthy: it contains its two
separator bars. -/
theorem versionFromPayload_ne_empty (p : JsVal) (v : String)
    (h : versionFromPayload p = .ok v) : v ≠ "" := by
  unfold versionFromPayload at h
  rcases hu : jmember p "updated_at" with e | u <;> rw [hu] at h
  · exact Except.noConfusion h
  rcases hg : jmember p "game_id" with e | g <;> rw [hg] at h
  · exact Except.noConfusion h
  rcases he : jmember p "events" with e | ev <;> rw [he] at h
  · exact Except.noConfusion h
  have h2 : Except.ok (ε := Unit)
      (joinElem u ++ "|" ++ joinElem g ++ "|" ++ joinElem (jchain ev "length")) = Except.ok v := h
  cases h2
  exact append_pipes_ne_empty _ _ _

/-- Claim C3: a silent refresh whose fetched payload has the same
version fingerprint as the last applied one leaves the viewer's state
untouched — events, cursor, playing flag, stored fingerprint, and log
are all preserved. -/
theorem silent_refresh_frame (p : JsVal) (v : String) (st : ViewerState)
    (hv : versionFromPayload p = .ok v) (hfp : st.feedVersion = some v) :
    (loadEvents true (some p) st).events = st.events ∧
    (loadEvents true (some p) st).currentIndex = st.currentIndex ∧
    (loadEvents true (some p) st).playing = st.playing ∧
    (loadEvents true (some p) st).feedVersion = st.feedVersion ∧
    (loadEvents true (some p) st).log = st.log := by
  have hne := versionFromPayload_ne_empty p v hv
  cases hn : normalizeAll p with
  | error e => simp [loadEvents, hv, hn]
  | ok evs => simp [loadEvents, hv, hn, hfp, hne]

/-- Witness for C3: a concrete payload whose fingerprint `"t1|g|0"`
matches the stored one leaves the cursor at `1`. -/
theorem silent_refresh_frame_witness :
    ((loadEvents true (some (.obj [("updated_at", .str "t1"), ("game_id", .str "g"),
        ("events", .arr [])]))
      { events := [defaultNEvent 0], currentIndex := 1, playing := false, playBtnLabel := "Play"
        lastTick := 3, feedVersion := some "t1|g|0", log := ["x"], status := none }).currentIndex = 1) ∧
    "t1|g|0" = "t1|g|0" := by
  have h := silent_refresh_frame (.obj [("updated_at", .str "t1"), ("game_id", .str "g"),
      ("events", .arr [])]) "t1|g|0"
      { events := [defaultNEvent 0], currentIndex := 1, playing := false, playBtnLabel := "Play"
        lastTick := 3, feedVersion := some "t1|g|0", log := ["x"], status := none } rfl rfl
  exact ⟨h.2.1, rfl⟩

/-- A normalization that succeeds with a non-`null` result always
produces an object, which is truthy. -/
theorem normalize_ok_some_truthy (p v : JsVal)
    (h : normalizeBridgePayload p = .ok (some v)) : truthy v = true := by
  cases p with
  | null => simp [normalizeBridgePayload] at h
  | nan => simp [normalizeBridgePayload] at h
  | bool b => simp [normalizeBridgePayload] at h
  | num q => simp [normalizeBridgePayload] at h
  | str s => simp [normalizeBridgePayload] at h
  | obj fs =>
    cases hf : normalizeBridgeFields (JsVal.obj fs) with
    | error e => simp [normalizeBridgePayload, hf, Except.map] at h
    | ok l =>
      simp [normalizeBridgePayload, hf, Except.map] at h
      subst h
      rfl
  | arr xs =>
    cases hf : normalizeBridgeFields (JsVal.arr xs) with
    | error e => simp [normalizeBridgePayload, hf, Except.map] at h
    | ok l =>
      simp [normalizeBridgePayload, hf, Except.map] at h
      subst h
      rfl

/-- A successful merge always produces an object, which is truthy. -/
theorem mergeState_ok_truthy (b i v : JsVal) (h : mergeState b i = .ok v) :
    truthy v = true := by
  unfold mergeState at h
  cases hf : mergeStateFields b i <;> rw [hf] at h
  · exact Except.noConfusion h
  · cases Except.ok.inj h
    rfl

/-- A cached state `loadLocalState` returns is a merged object, which is
truthy. -/
theorem loadLocalState_some_truthy (raw : Option (Option JsVal)) (v : JsVal)
    (h : loadLocalState raw = some v) : truthy v = true := by
  rcases raw with _ | (_ | j)
  · exact Option.noConfusion h
  · exact Option.noConfusion h
  · cases hm : mergeState defaultStateJson j with
    | error e => simp [loadLocalState, hm] at h
    | ok m =>
      simp [loadLocalState, hm] at h
      subst h
      exact mergeState_ok_truthy _ _ _ hm

/-- Claim C4: on startup the in-memory state is `defaultState`
deep-merged with the first available of the normalized bridge file, the
locally cached state, or `defaultState` itself; the bridge file wins
over the cache, and a fetch failure, a throwing or `null` normalization,
a missing cache entry, or an unparsable cache all fall through to the
next source (with nothing available, the state is exactly the
default). -/
theorem bootstrap_state_sources :
    (∀ j raw nb, normalizeBridgePayload j = .ok (some nb) →
        bootstrapState (some j) raw = mergeState defaultStateJson nb) ∧
    (∀ fetched raw lc, loadBridgeFile fetched = none → loadLocalState raw = some lc →
        bootstrapState fetched raw = mergeState defaultStateJson lc) ∧
    (∀ fetched raw, loadBridgeFile fetched = none → loadLocalState raw = none →
        bootstrapState fetched raw = .ok defaultStateJson) ∧
    loadBridgeFile none = none ∧
    (∀ j, normalizeBridgePayload j = .error () → loadBridgeFile (some j) = none) ∧
    (∀ j, normalizeBridgePayload j = .ok none → loadBridgeFile (some j) = none) ∧
    loadLocalState none = none ∧
    loadLocalState (some none) = none := by
  refine ⟨?_, ?_, ?_, rfl, ?_, ?_, rfl, rfl⟩
  · intro j raw nb h
    unfold bootstrapState
    simp [loadBridgeFile, h, jsOrV, normalize_ok_some_truthy j nb h]
  · intro fetched raw lc h1 h2
    unfold bootstrapState
    rw [h1, h2]
    simp [jsOrV, loadLocalState_some_truthy raw lc h2]
  · intro fetched raw h1 h2
    unfold bootstrapState
    rw [h1, h2]
    rfl
  · intro j h
    simp [loadBridgeFile, h]
  · intro j h
    simp [loadBridgeFile, h]

/-- Witness for C4 at a concrete bridge file and cache entry. -/
theorem bootstrap_state_sources_witness :
    bootstrapState (some witnessBridgeJson) (some (some witnessCacheJson)) =
      mergeState defaultStateJson bridgeNormResult ∧
    bootstrapState none (some (some witnessCacheJson)) =
      mergeState defaultStateJson cacheLoadResult ∧
    bootstrapState none none = .ok defaultStateJson :=
  ⟨bootstrap_state_sources.1 witnessBridgeJson _ _ rfl,
   bootstrap_state_sources.2.1 none _ _ rfl rfl,
   bootstrap_state_sources.2.2.1 none none rfl rfl⟩

/-- A bounded cursor stays bounded across one `stepOnce`. -/
theorem stepOnce_idx_le (st : ViewerState) (h : st.currentIndex ≤ st.events.length) :
    (stepOnce st).1.currentIndex ≤ (stepOnce st).1.events.length := by
  unfold stepOnce
  split
  · dsimp only
    split
    · split
      · dsimp only; omega
      · dsimp only; omega
    · dsimp only; omega
  · dsimp only; omega

/-- A completed `stepOnce` below the end advances the cursor by one. -/
theorem stepOnce_ok_idx (st : ViewerState) (hlt : st.currentIndex < st.events.length)
    (hok : (stepOnce st).2 = true) :
    (stepOnce st).1.currentIndex = st.currentIndex + 1 := by
  cases hr : render st.events[st.currentIndex] st.log with
  | mk newLog ok =>
    cases ok
    · simp [stepOnce, hlt, hr] at hok
    · simp only [stepOnce, hlt, dif_pos, List.get_eq_getElem, hr, if_true]
      split <;> rfl

/-- `stepOnce` at the end of the replay is the identity (guard
`currentIndex >= events.length`). -/
theorem stepOnce_at_end (st : ViewerState) (h : st.currentIndex = st.events.length) :
    stepOnce st = (st, true) := by
  unfold stepOnce
  rw [dif_neg]
  omega

/-- The skip loop preserves the cursor bound whatever happens. -/
theorem skipAux_le (n : Nat) : ∀ st : ViewerState,
    st.currentIndex ≤ st.events.length →
    (skipAux n st).1.currentIndex ≤ (skipAux n st).1.events.length := by
  induction n with
  | zero => intro st h; exact h
  | succ n ih =>
    intro st h
    by_cases hlt : st.currentIndex < st.events.length
    · rcases hr : (stepOnce st).2 with _ | _
      · rw [show skipAux (n + 1) st = ((stepOnce st).1, false) from by simp [skipAux, hlt, hr]]
        exact stepOnce_idx_le st h
      · rw [show skipAux (n + 1) st = skipAux n (stepOnce st).1 from by simp [skipAux, hlt, hr]]
        exact ih _ (stepOnce_idx_le st h)
    · rw [show skipAux (n + 1) st = (st, true) from by simp [skipAux, hlt]]
      exact h

/-- With enough fuel, a skip loop in which no `stepOnce` throws ends
exactly at the end of the replay. -/
theorem skipAux_completes (n : Nat) : ∀ st : ViewerState,
    st.currentIndex ≤ st.events.length →
    st.events.length - st.currentIndex ≤ n →
    (skipAux n st).2 = true →
    (skipAux n st).1.currentIndex = (skipAux n st).1.events.length := by
  induction n with
  | zero =>
    intro st h hf _
    have : st.currentIndex = st.events.length := by omega
    exact this
  | succ n ih =>
    intro st h hf hok
    by_cases hlt : st.currentIndex < st.events.length
    · rcases hr : (stepOnce st).2 with _ | _
      · rw [show skipAux (n + 1) st = ((stepOnce st).1, false) from by simp [skipAux, hlt, hr]] at hok
        simp at hok
      · have hstep : skipAux (n + 1) st = skipAux n (stepOnce st).1 := by simp [skipAux, hlt, hr]
        rw [hstep] at hok ⊢
        have hidx := stepOnce_ok_idx st hlt hr
        have hev := (stepOnce_frame st).1
        exact ih _ (by rw [hidx, hev]; omega) (by rw [hidx, hev]; omega) hok
    · have hend : st.currentIndex = st.events.length := by omega
      rw [show skipAux (n + 1) st = (st, true) from by simp [skipAux, hlt]]
      exact hend

/-- `applyEvents` always leaves the cursor within bounds. -/
theorem applyEvents_bounds (evs : List NEvent) (st : ViewerState) :
    (applyEvents evs st).1.currentIndex ≤ (applyEvents evs st).1.events.length := by
  unfold applyEvents
  split
  · exact Nat.zero_le _
  · exact stepOnce_idx_le _ (Nat.zero_le _)

/-- Claim C9, amended: the invariant
`0 <= currentIndex <= events.length` holds after `stepOnce`,
`applyEvents`, and the play/pause, step, and skip handlers; `stepOnce`
at `currentIndex = events.length` changes nothing; a `stepOnce` that
completes onto the final event auto-pauses; and the skip loop that
completes without a `render` exception ends with
`currentIndex = events.length`. -/
theorem playback_cursor_invariants :
    (∀ st : ViewerState, st.currentIndex ≤ st.events.length →
        (stepOnce st).1.currentIndex ≤ (stepOnce st).1.events.length) ∧
    (∀ (evs : List NEvent) (st : ViewerState),
        (applyEvents evs st).1.currentIndex ≤ (applyEvents evs st).1.events.length) ∧
    (∀ st : ViewerState, st.currentIndex ≤ st.events.length →
        (playPauseClick st).currentIndex ≤ (playPauseClick st).events.length) ∧
    (∀ st : ViewerState, st.currentIndex ≤ st.events.length →
        (stepClick st).1.currentIndex ≤ (stepClick st).1.events.length) ∧
    (∀ st : ViewerState, st.currentIndex ≤ st.events.length →
        (skipClick st).1.currentIndex ≤ (skipClick st).1.events.length) ∧
    (∀ st : ViewerState, st.currentIndex = st.events.length → stepOnce st = (st, true)) ∧
    (∀ st : ViewerState, (stepOnce st).2 = true → st.currentIndex + 1 = st.events.length →
        (stepOnce st).1.playing = false ∧ (stepOnce st).1.playBtnLabel = "Play") ∧
    (∀ st : ViewerState, st.currentIndex ≤ st.events.length → (skipClick st).2 = true →
        (skipClick st).1.currentIndex = (skipClick st).1.events.length) := by
  refine ⟨stepOnce_idx_le, applyEvents_bounds, fun st h => h, ?_, ?_, stepOnce_at_end, ?_, ?_⟩
  · intro st h
    exact stepOnce_idx_le _ h
  · intro st h
    exact skipAux_le _ _ h
  · intro st hok hend
    have hlt : st.currentIndex < st.events.length := by omega
    cases hr : render st.events[st.currentIndex] st.log with
    | mk newLog ok =>
      cases ok
      · simp [stepOnce, hlt, hr] at hok
      · constructor <;>
          simp [stepOnce, hlt, hr, show st.events.length ≤ st.currentIndex + 1 from by omega]
  · intro st h hok
    exact skipAux_completes _ _ h (by omega) hok

/-- Claim C9, counterexample: a feed event `{ bases_before: "abc" }`
normalizes to an event whose `bases_before` is a string, `render`
throws in `updateLog` (`"abc".map` is not a function), and the skip
loop aborts with the cursor still at 0 while one event is loaded — it
does not terminate with `currentIndex = events.length`. -/
theorem skip_loop_abort_cex :
    normalizeEvent (.obj [("bases_before", .str "abc")]) 0 = .ok (some stringBasesEvent) ∧
    (skipClick stuckViewerState).1.currentIndex = 0 ∧
    (skipClick stuckViewerState).1.events.length = 1 ∧
    (0 : Nat) ≠ 1 := ⟨rfl, rfl, rfl, by decide⟩

/-- Witness for the amended C9 on a one-event viewer state that renders
cleanly. -/
theorem playback_cursor_invariants_witness :
    (stepOnce witnessViewerState).1.currentIndex ≤ (stepOnce witnessViewerState).1.events.length ∧
    stepOnce { witnessViewerState with currentIndex := 1 } =
      ({ witnessViewerState with currentIndex := 1 }, true) ∧
    (skipClick witnessViewerState).1.currentIndex = (skipClick witnessViewerState).1.events.length := by
  refine ⟨playback_cursor_invariants.1 witnessViewerState (by decide), ?_, ?_⟩
  · exact playback_cursor_invariants.2.2.2.2.2.1 _ (by decide)
  · exact playback_cursor_invariants.2.2.2.2.2.2.2 witnessViewerState (by decide) (by decide)

/-- Mapping the lineup picker over lineup entries is the identity. -/
theorem mapEx_pickLineupEntry (l : List Player) :
    mapEx pickLineupEntry (l.map playerJson) = .ok (l.map playerJson) := by
  induction l with
  | nil => rfl
  | cons p rest ih =>
    have hp : pickLineupEntry (playerJson p) = .ok (playerJson p) := rfl
    simp [mapEx, hp, ih]
    try rfl

/-- Mapping the rotation picker over rotation entries with non-empty
roles is the identity. -/
theorem mapEx_pickRotationEntry (l : List Pitcher) (hrot : ∀ p ∈ l, p.role ≠ "") :
    mapEx pickRotationEntry (l.map pitcherJson) = .ok (l.map pitcherJson) := by
  induction l with
  | nil => rfl
  | cons p rest ih =>
    have hr2 : p.role ≠ "" := hrot p (List.mem_cons_self p rest)
    have hp : pickRotationEntry (pitcherJson p) = .ok (pitcherJson p) := by
      show Except.ok (JsVal.obj ([("name", .str p.name)] ++
          [("role", jsOrV (some (.str p.role)) (.str "SP"))])) = _
      simp [jsOrV, truthy, pitcherJson, hr2]
    simp [mapEx, hp, ih (fun q hq => hrot q (List.mem_cons_of_mem p hq))]
    try rfl

/-- Merging a field list with fresh, duplicate-free keys into an object
appends the bindings in order. -/
theorem objMergeFields_append {α : Type} (l : List (String × α)) :
    ∀ acc : List (String × α),
    (∀ q ∈ l, ∀ p2 ∈ acc, p2.1 ≠ q.1) → (l.map Prod.fst).Nodup →
    objMergeFields acc l = acc ++ l := by
  induction l with
  | nil => intro acc _ _; simp [objMergeFields]
  | cons q rest ih =>
    intro acc hd hn
    simp only [List.map_cons, List.nodup_cons] at hn
    have hset : objSet acc q.1 q.2 = acc ++ [q] := by
      have hnc : ¬(acc.any fun p => p.1 == q.1) = true := by
        intro hany
        rcases List.any_eq_true.mp hany with ⟨p2, hp2, hpq⟩
        exact hd q (List.mem_cons_self q rest) p2 hp2 (eq_of_beq hpq)
      unfold objSet
      rw [if_neg hnc]
    have step : objMergeFields acc (q :: rest) = objMergeFields (acc ++ [q]) rest := by
      show (q :: rest).foldl (fun acc p => objSet acc p.1 p.2) acc = _
      rw [List.foldl_cons, hset]
      rfl
    have hd2 : ∀ q2 ∈ rest, ∀ p2 ∈ acc ++ [q], p2.1 ≠ q2.1 := by
      intro q2 hq2 p2 hp2
      rcases List.mem_append.mp hp2 with hin | hin
      · exact hd q2 (List.mem_cons_of_mem q hq2) p2 hin
      · have hpq : p2 = q := List.mem_singleton.mp hin
        subst hpq
        intro hc
        apply hn.1
        rw [hc]
        exact List.mem_map_of_mem Prod.fst hq2
    rw [step, ih (acc ++ [q]) hd2 hn.2, List.append_assoc]
    rfl

/-- `Object.fromEntries` is the identity on entry lists with distinct
keys. -/
theorem objFromEntries_eq_self {α : Type} (l : List (String × α))
    (hn : (l.map Prod.fst).Nodup) : objFromEntries l = l := by
  have := objMergeFields_append l [] (by simp) hn
  simpa [objFromEntries] using this

/-- Claim C1, counterexample: a state with every promotion off does not
round-trip — the export lists no active promotions, and the normalizer
rebuilds the flag map from the defaults, so `fireworks` comes back
`true` where the state had `false`. -/
theorem bridge_roundtrip_cex :
    normalizeBridgePayload (bridgeToJson (getBridgePayload promoOffState)) ≠
      .ok (some (stateToJson promoOffState)) := by
  intro h
  have h2 := congrArg fireworksFlag h
  have h3 : (some true : Option Bool) = some false := h2
  exact Bool.noConfusion (Option.some.inj h3)

/-- Claim C1, amended: the bridge document round-trips — the normalized
payload reproduces the state's team name, lineup, rotation, ticket
price, promotion flag map, and concession price map — provided the team
name is non-empty, every rotation role is non-empty, the concession
keys are distinct, and the promotion map has exactly the four known
keys with the default-active `fireworks` and `themeNight` switched
on. -/
theorem bridge_roundtrip_amended (s : ManagerState) (b1 b2 : Bool)
    (hname : s.teamName ≠ "")
    (hrot : ∀ p ∈ s.rotation, p.role ≠ "")
    (hpromo : s.economics.promotions =
      [("fireworks", true), ("kidsDay", b1), ("themeNight", true), ("giveaway", b2)])
    (hconc : (s.economics.concessions.map Prod.fst).Nodup) :
    normalizeBridgePayload (bridgeToJson (getBridgePayload s)) = .ok (some (stateToJson s)) := by
  obtain ⟨tn, lu, ro, eco⟩ := s
  obtain ⟨tp, promos, conc⟩ := eco
  simp only at hpromo hname hrot hconc
  subst hpromo
  have hfe : objFromEntries conc = conc := objFromEntries_eq_self conc hconc
  have hlu := mapEx_pickLineupEntry lu
  have hro := mapEx_pickRotationEntry ro hrot
  cases b1 <;> cases b2 <;>
    (simp [normalizeBridgePayload, normalizeBridgeFields, bridgeToJson, getBridgePayload,
       stateToJson, jget, jsOrV, jsCoD, truthy, jsNumber, hname, hlu, hro, hfe,
       List.map_map, Except.map]
     try rfl)

/-- Witness for the amended C1: the default state round-trips
exactly. -/
theorem bridge_roundtrip_amended_witness :
    normalizeBridgePayload (bridgeToJson (getBridgePayload defaultState)) =
      .ok (some (stateToJson defaultState)) :=
  bridge_roundtrip_amended defaultState false false (by decide) (by decide) rfl (by decide)
